import Mathlib

/-!
Verification of `utils/push_to_hub.py` from rl-baselines3-zoo.

The script is straight-line orchestration: it resolves CLI options, loads a
trained agent, then packages it for the Hugging Face hub (saves the model and
normalization statistics, copies configs, evaluates the agent, optionally
records a replay video, generates a model card and pushes everything).

The embedding below models:
  - the pure CLI-resolution logic of the `__main__` block (action-selection
    mode, repository id, forced environment count, env-kwargs merging);
  - `generate_model_card` and its helper `generate_metadata`;
  - `package_to_hub` as a state-passing function over an explicit filesystem
    (paths are component lists, mirroring `pathlib.Path` joins) together with
    an event trace, returning `Except` since unhandled exceptions abort the
    whole run.
Reward values (Python floats) are modelled by rationals: the script performs
no arithmetic on them, it only passes them through.
-/

set_option maxRecDepth 100000

namespace PushToHub

/-! ## String helpers (models of the Python string operations used) -/

/-- Tests whether the first list is a prefix of the second (Boolean). -/
def beginsWith : List Char → List Char → Bool
  | [], _ => true
  | _ :: _, [] => false
  | a :: pa, b :: l => a == b && beginsWith pa l

/-- Tests whether `pat` occurs as a contiguous substring of `l` (Boolean). -/
def containsSub (pat : List Char) : List Char → Bool
  | [] => beginsWith pat []
  | b :: l => beginsWith pat (b :: l) || containsSub pat l

/-- Substring test on strings: models the Python `in` operator on `str`. -/
def strContains (pat s : String) : Bool :=
  containsSub pat.data s.data

/-- Suffix test on strings, used to model shell-glob patterns such as
`*.csv` and `*.meta.json`. -/
def strEndsWith (suf s : String) : Bool :=
  beginsWith suf.data.reverse s.data.reverse

/-- Models the Python `str.split` with a one-character separator, on
character lists: `"a/b".split("/") == ["a", "b"]`, `"".split("/") == [""]`. -/
def splitCharList (sep : Char) : List Char → List (List Char)
  | [] => [[]]
  | c :: rest =>
    let r := splitCharList sep rest
    if c == sep then [] :: r
    else
      match r with
      | h :: t => (c :: h) :: t
      | [] => [[c]]

/-- Models the Python `str.split` with a one-character separator. -/
def pySplit (sep : Char) (s : String) : List String :=
  (splitCharList sep s.data).map String.mk

/-- Models the Python `str.replace(old, new)` for one-character `old` and
`new`, the only form the source uses (`repo_name.replace("/", "-")`). -/
def pyReplaceChar (old new : Char) (s : String) : String :=
  String.mk (s.data.map fun c => if c == old then new else c)

theorem string_data_append (a b : String) : (a ++ b).data = a.data ++ b.data := rfl

/-! ## Action-selection mode (`__main__`, lines 371-373)

Source:
  stochastic = args.stochastic or is_atari and not args.deterministic
  deterministic = not stochastic
and `deterministic` is then passed as `is_deterministic`. -/

/-- Line 372: `stochastic = args.stochastic or is_atari and not args.deterministic`. -/
def resolveStochastic (stochasticFlag deterministicFlag isAtari : Bool) : Bool :=
  stochasticFlag || (isAtari && !deterministicFlag)

/-- Line 373 and the `is_deterministic=deterministic` argument of the
`package_to_hub` call: the action-selection mode of the run. -/
def resolveIsDeterministic (stochasticFlag deterministicFlag isAtari : Bool) : Bool :=
  !(resolveStochastic stochasticFlag deterministicFlag isAtari)

/-! ## Repository id (`__main__`, lines 375-381) -/

/-- Line 376: `model_name = f"{algo}-{env_id}"`, the default repository name. -/
def defaultModelName (algo env_id : String) : String :=
  algo ++ "-" ++ env_id

/-- Lines 378-379: the repo name argument defaults to `model_name`. -/
def resolveRepoName (repoNameArg : Option String) (algo env_id : String) : String :=
  match repoNameArg with
  | some n => n
  | none => defaultModelName algo env_id

/-- Line 381: `repo_id = f"{args.organization}/{args.repo_name.replace('/', '-')}"`. -/
def resolveRepoId (organization : String) (repoNameArg : Option String)
    (algo env_id : String) : String :=
  organization ++ "/" ++ pyReplaceChar '/' '-' (resolveRepoName repoNameArg algo env_id)

/-! ## Forced environment count (`__main__`, lines 320-324) -/

/-- Line 321: the fixed off-policy algorithm list. -/
def off_policy_algos : List String :=
  ["qrdqn", "dqn", "ddpg", "sac", "her", "td3", "tqc"]

/-- Lines 323-324: `if algo in off_policy_algos: args.n_envs = 1`; the result
is the `n_envs` actually passed to `create_test_env`. -/
def resolveNEnvs (algo : String) (requested : Int) : Int :=
  if algo ∈ off_policy_algos then 1 else requested

/-! ## env_kwargs resolution (`__main__`, lines 338-348) -/

/-- Association-list lookup, modelling Python `dict` key access. -/
def lookupKV : List (String × String) → String → Option String
  | [], _ => none
  | p :: rest, k => if p.1 == k then some p.2 else lookupKV rest k

/-- Models Python `dict.update`: keys of `base` keep their position but take
the value from `upd` when present there; keys only in `upd` are appended. -/
def dictUpdate (base upd : List (String × String)) : List (String × String) :=
  (base.map fun p =>
    match lookupKV upd p.1 with
    | some v => (p.1, v)
    | none => p)
  ++ upd.filter fun q => (lookupKV base q.1).isNone

/-- The `env_kwargs` entry of the saved `args.yml` (a YAML mapping whose
stored value may be `None`). -/
structure SavedArgs where
  env_kwargs : Option (List (String × String))

/-- Lines 338-348: start from `{}`; if `args.yml` exists and its stored
`env_kwargs` is not `None`, take that mapping; then overwrite with the
command-line `--env-kwargs` when given. -/
def resolveEnvKwargs (argsFile : Option SavedArgs)
    (cliKwargs : Option (List (String × String))) : List (String × String) :=
  let env_kwargs : List (String × String) := []
  let env_kwargs :=
    match argsFile with
    | some loaded =>
      match loaded.env_kwargs with
      | some kw => kw
      | none => env_kwargs
    | none => env_kwargs
  match cliKwargs with
  | some c => dictUpdate env_kwargs c
  | none => env_kwargs

/-- The mapping stored under `env_kwargs` in `args.yml`, read as the claim
describes it: empty when the file is absent or the stored value is `None`. -/
def storedEnvKwargs (argsFile : Option SavedArgs) : List (String × String) :=
  match argsFile with
  | some loaded =>
    match loaded.env_kwargs with
    | some kw => kw
    | none => []
  | none => []

/-! ## Model card generation (`generate_model_card`, lines 45-112) -/

/-- Joins a list of strings with a separator (used by the `pformat` model). -/
def joinSep (sep : String) : List String → String
  | [] => ""
  | [x] => x
  | x :: xs => x ++ sep ++ joinSep sep xs

/-- Models `pprint.pformat` on a dict whose values are already rendered:
a brace-delimited, comma-separated list of quoted keys and values. -/
def pformat (d : List (String × String)) : String :=
  "\x7b" ++ joinSep ",\n " (d.map fun kv => "\x27" ++ kv.1 ++ "\x27: " ++ kv.2) ++ "\x7d"

/-- Metadata mapping of the model card: performance, algo/env id, tags. -/
structure Metadata where
  algo_class_name : String
  env_id : String
  mean_reward : ℚ
  std_reward : ℚ
deriving DecidableEq

/-- Modelled from the spec: `generate_metadata` comes from the external
`huggingface_sb3` package and is not under `src/`; per the spec, "the
generated metadata mapping always contains the supplied mean and std reward
values unchanged", together with the algo/env identification tags. -/
def generate_metadata (algo_class_name env_id : String)
    (mean_reward std_reward : ℚ) : Metadata :=
  { algo_class_name := algo_class_name
    env_id := env_id
    mean_reward := mean_reward
    std_reward := std_reward }

/-- The literal opening of the Environment Arguments section (line 106). -/
def envArgsSectionHead : String := "\n# Environment Arguments\n```python\n"

/-- The literal closing of the Environment Arguments section (line 109). -/
def envArgsSectionTail : String := "\n```\n"

/-- Lines 45-112: builds the Markdown model card by string-template
substitution and appends an Environment Arguments section only when
`env_kwargs` is non-empty; returns the card and the metadata mapping. -/
def generate_model_card (algo_name : String) (algo_class_name : String)
    (organization : String) (env_id : String) (mean_reward std_reward : ℚ)
    (hyperparams env_kwargs : List (String × String)) : String × Metadata :=
  let metadata := generate_metadata algo_class_name env_id mean_reward std_reward
  let model_card :=
    "\n# **" ++ algo_class_name ++ "** Agent playing **" ++ env_id ++
    "**\nThis is a trained model of a **" ++ algo_class_name ++
    "** agent playing **" ++ env_id ++
    "**\nusing the [stable-baselines3 library](https://github.com/DLR-RM/stable-baselines3)\nand the [RL Zoo](https://github.com/DLR-RM/rl-baselines3-zoo).\n\nThe RL Zoo is a training framework for Stable Baselines3\nreinforcement learning agents,\nwith hyperparameter optimization and pre-trained agents included.\n"
  let model_card := model_card ++
    ("\n## Usage (with SB3 RL Zoo)\n\nRL Zoo: https://github.com/DLR-RM/rl-baselines3-zoo<br/>\nSB3: https://github.com/DLR-RM/stable-baselines3<br/>\nSB3 Contrib: https://github.com/Stable-Baselines-Team/stable-baselines3-contrib\n\n```\n# Download model and save it into the logs/ folder\npython -m utils.load_from_hub --algo " ++
      algo_name ++ " --env " ++ env_id ++ " -orga " ++ organization ++
      " -f logs/\npython enjoy.py --algo " ++ algo_name ++ " --env " ++ env_id ++
      "  -f logs/\n```\n\n## Training (with the RL Zoo)\n```\npython train.py --algo " ++
      algo_name ++ " --env " ++ env_id ++
      " -f logs/\n# Upload the model and generate video (when possible)\npython -m utils.push_to_hub --algo " ++
      algo_name ++ " --env " ++ env_id ++ " -f logs/ -orga " ++ organization ++
      "\n```\n\n## Hyperparameters\n```python\n" ++ pformat hyperparams ++ "\n```\n")
  let model_card :=
    if env_kwargs.length > 0 then
      model_card ++ (envArgsSectionHead ++ pformat env_kwargs ++ envArgsSectionTail)
    else
      model_card
  (model_card, metadata)

/-- The Markdown header of the Environment Arguments section. -/
def envArgsMarker : String := "# Environment Arguments"

/-- Whether a model card text contains the Environment Arguments header. -/
def mentionsEnvArgs (s : String) : Bool :=
  containsSub envArgsMarker.data s.data

/-! ## Filesystem model

Paths are component lists, mirroring the `pathlib.Path` joins of the source
(`repo_local_path / model_name`, `log_path / env_id / "args.yml"`, ...).
The filesystem is an association list from paths to file contents; a write
replaces any existing entry. -/

/-- A filesystem path, as the list of its components. -/
abbrev FilePath' := List String

/-- The `VecNormalize` wrapper state: running statistics (kept abstract)
plus the `training` and `norm_reward` attributes mutated by the script. -/
structure VecNormalize where
  stats : String
  training : Bool
  norm_reward : Bool
deriving DecidableEq

/-- The evaluation environment, as far as the script inspects it:
`unwrap_vec_normalize` either finds a `VecNormalize` wrapper or does not. -/
structure EvalEnv where
  vecnorm : Option VecNormalize
deriving DecidableEq

/-- Contents of the files the script reads or writes. -/
inductive Content where
  | savedModel (model : String)
  | extractedModel (model : String)
  | vecNormalizePkl (vn : VecNormalize)
  | yamlKwargs (kwargs : List (String × String))
  | metricsZip (entries : List String)
  | replayVideo (model : String) (env : EvalEnv) (len : Nat) (deterministic : Bool)
  | tempVideo
  | tempMeta
  | text (s : String)
  | readme (md : Metadata) (card : String)
deriving DecidableEq

/-- The filesystem: an association list from paths to contents. -/
abbrev FS := List (FilePath' × Content)

/-- Removes every entry at the given path. -/
def fsRemove : FS → FilePath' → FS
  | [], _ => []
  | e :: rest, p => if e.1 == p then fsRemove rest p else e :: fsRemove rest p

/-- Writes a file, replacing any previous content at that path. -/
def fsWrite (fs : FS) (p : FilePath') (c : Content) : FS :=
  (p, c) :: fsRemove fs p

/-- Reads a file. -/
def fsLookup : FS → FilePath' → Option Content
  | [], _ => none
  | e :: rest, p => if e.1 == p then some e.2 else fsLookup rest p

/-- The paths currently present. -/
def fsPaths (fs : FS) : List FilePath' :=
  fs.map fun e => e.1

/-! ## File and path names used by the script -/

def zipExt : String := ".zip"
def csvExt : String := ".csv"
def metaJsonExt : String := ".meta.json"
def vecNormalizeName : String := "vec_normalize.pkl"
def argsYmlName : String := "args.yml"
def configYmlName : String := "config.yml"
def envKwargsYmlName : String := "env_kwargs.yml"
def metricsZipName : String := "train_eval_metrics.zip"
def evaluationsNpzName : String := "evaluations.npz"
def replayName : String := "replay.mp4"
def readmeName : String := "README.md"
def testMp4Name : String := "test.mp4"
def testMetaJsonName : String := "test.meta.json"

/-- `Path("test.mp4")`: the temporary video file, in the working directory. -/
def testMp4Path : FilePath' := [testMp4Name]

/-- The temporary metadata file the video recorder leaves in the working
directory. -/
def testMetaPath : FilePath' := [testMetaJsonName]

/-- Models `glob.glob("*.meta.json")`: working-directory (single-component)
paths ending in `.meta.json`. -/
def globCwdMetaJson (fs : FS) : List FilePath' :=
  (fsPaths fs).filter fun p =>
    match p with
    | [nm] => strEndsWith metaJsonExt nm
    | _ => false

/-- Models `glob.glob(f"{log_path}/*.csv")`: direct children of `log_path`
whose name ends in `.csv`. -/
def globCsv (fs : FS) (log_path : FilePath') : List FilePath' :=
  (fsPaths fs).filter fun p =>
    p.dropLast == log_path &&
      (match p.getLast? with
       | some nm => strEndsWith csvExt nm
       | none => false)

/-- `monitor_file.split(os.sep)[-1]`: the last path component. -/
def baseNameOf (p : FilePath') : String :=
  (p.getLast?).getD ""

/-! ## package_to_hub (lines 115-262) -/

def errRepoId : String := "repo_id does not split into organization/repo_name"
def errFileNotFound : String := "FileNotFoundError"
def errBadZip : String := "BadZipFile"
def errMissingArgs : String := "args.yml not found"
def errMissingConfig : String := "config.yml not found"

/-- `Path.unlink()`: removes the file, raising when it does not exist. -/
def pathUnlink (fs : FS) (p : FilePath') : Except String FS :=
  if (fsLookup fs p).isSome then Except.ok (fsRemove fs p) else Except.error errFileNotFound

/-- Lines 235-242: cleanup after video generation. `test.mp4` is removed
only after an `is_file` check, and the first `*.meta.json` glob match is
removed only when the glob result is non-empty. -/
def cleanupTempFiles (fs : FS) : Except String FS :=
  let step1 : Except String FS :=
    if (fsLookup fs testMp4Path).isSome then pathUnlink fs testMp4Path
    else Except.ok fs
  match step1 with
  | Except.error e => Except.error e
  | Except.ok fs =>
    let json_path := globCwdMetaJson fs
    match json_path with
    | [] => Except.ok fs
    | p :: _ => pathUnlink fs p

/-- Lines 29-42, `save_model_card`: overwrites `README.md` with the
generated card, then `metadata_save` (external `huggingface_hub`) embeds the
metadata mapping into that same file; the final content is modelled as the
card together with its embedded metadata. -/
def save_model_card (fs : FS) (repo_dir : FilePath') (generated_model_card : String)
    (metadata : Metadata) : FS :=
  let readme_path := repo_dir ++ [readmeName]
  let fs := fsWrite fs readme_path (Content.text generated_model_card)
  fsWrite fs readme_path (Content.readme metadata generated_model_card)

/-- The URL returned by `create_repo`. -/
def repoUrlFor (repo_id : String) : String :=
  "https://huggingface.co/" ++ repo_id

/-- One observable step of the run, in execution order. -/
inductive Event where
  | createRepo (repo_id : String)
  | gitPull
  | lfsTrack
  | savedModel
  | savedVecNormalize
  | extractedModel
  | copiedConfigs
  | dumpedEnvKwargs
  | zippedMetrics
  | evaluated (env : EvalEnv) (mean_reward std_reward : ℚ)
  | generatedVideo (env : EvalEnv)
  | cleanedTempFiles
  | generatedCard (mean_reward std_reward : ℚ)
  | savedCard
  | pushed
deriving DecidableEq

/-- Result of a successful `package_to_hub` run: final filesystem, event
trace, and the returned repo URL. -/
structure PkgResult where
  fs : FS
  events : List Event
  repo_url : String
deriving DecidableEq

/-- Lines 115-262, `package_to_hub`, as a state-passing function.
External collaborators are modelled as follows: `model.save` writes the
model archive `<model_name>.zip`; `_evaluate_agent` is the function
parameter `evalAgent` (its reward pair feeds the card); `_generate_replay`
writes `replay.mp4` into the clone and leaves temporary `test.mp4` /
`test.meta.json` files in the working directory; hub operations
(`create_repo`, clone/pull, `lfs_track`, `push_to_hub`) only touch the
remote and appear as trace events, with `fs0` the local clone state after
the initial pull. Unhandled exceptions (bad `repo_id` unpacking, missing
config files) abort the run via `Except.error`. -/
def packageToHub (evalAgent : String → EvalEnv → Nat → Bool → ℚ × ℚ) (fs0 : FS)
    (model model_name algo_name algo_class_name : String) (log_path : FilePath')
    (hyperparams env_kwargs : List (String × String)) (env_id : String)
    (eval_env : EvalEnv) (repo_id : String) (is_deterministic : Bool)
    (n_eval_episodes : Nat) (local_repo_path : String) (video_length : Nat)
    (generate_video : Bool) : Except String PkgResult :=
  match pySplit '/' repo_id with
  | [organization, repo_name] =>
    let events := [Event.createRepo repo_id, Event.gitPull, Event.lfsTrack]
    let repo_local_path : FilePath' := [local_repo_path, repo_name]
    let fs := fsWrite fs0 (repo_local_path ++ [model_name ++ zipExt]) (Content.savedModel model)
    let events := events ++ [Event.savedModel]
    let (fs, eval_env, events) :=
      match eval_env.vecnorm with
      | some vn =>
        (fsWrite fs (repo_local_path ++ [vecNormalizeName]) (Content.vecNormalizePkl vn),
         ⟨some { vn with training := false, norm_reward := false }⟩,
         events ++ [Event.savedVecNormalize])
      | none => (fs, eval_env, events)
    match fsLookup fs (repo_local_path ++ [model_name ++ zipExt]) with
    | some (Content.savedModel m) =>
      let fs := fsWrite fs (repo_local_path ++ [model_name]) (Content.extractedModel m)
      let events := events ++ [Event.extractedModel]
      match fsLookup fs (log_path ++ [env_id, argsYmlName]) with
      | some cArgs =>
        let fs := fsWrite fs (repo_local_path ++ [argsYmlName]) cArgs
        match fsLookup fs (log_path ++ [env_id, configYmlName]) with
        | some cConfig =>
          let fs := fsWrite fs (repo_local_path ++ [configYmlName]) cConfig
          let events := events ++ [Event.copiedConfigs]
          let fs := fsWrite fs (repo_local_path ++ [envKwargsYmlName]) (Content.yamlKwargs env_kwargs)
          let events := events ++ [Event.dumpedEnvKwargs]
          let entries :=
            (if (fsLookup fs (log_path ++ [evaluationsNpzName])).isSome
             then [evaluationsNpzName] else [])
            ++ (globCsv fs log_path).map baseNameOf
          let fs := fsWrite fs (repo_local_path ++ [metricsZipName]) (Content.metricsZip entries)
          let events := events ++ [Event.zippedMetrics]
          let ms := evalAgent model eval_env n_eval_episodes is_deterministic
          let events := events ++ [Event.evaluated eval_env ms.1 ms.2]
          let videoStep : Except String (FS × List Event) :=
            if generate_video then
              let fs := fsWrite fs (repo_local_path ++ [replayName])
                (Content.replayVideo model eval_env video_length is_deterministic)
              let fs := fsWrite fs testMp4Path Content.tempVideo
              let fs := fsWrite fs testMetaPath Content.tempMeta
              let events := events ++ [Event.generatedVideo eval_env]
              match cleanupTempFiles fs with
              | Except.ok fs => Except.ok (fs, events ++ [Event.cleanedTempFiles])
              | Except.error e => Except.error e
            else Except.ok (fs, events)
          match videoStep with
          | Except.ok (fs, events) =>
            let cardMd := generate_model_card algo_name algo_class_name organization
              env_id ms.1 ms.2 hyperparams env_kwargs
            let events := events ++ [Event.generatedCard ms.1 ms.2]
            let fs := save_model_card fs repo_local_path cardMd.1 cardMd.2
            let events := events ++ [Event.savedCard, Event.pushed]
            Except.ok { fs := fs, events := events, repo_url := repoUrlFor repo_id }
          | Except.error e => Except.error e
        | none => Except.error errMissingConfig
      | none => Except.error errMissingArgs
    | some _ => Except.error errBadZip
    | none => Except.error errBadZip
  | _ => Except.error errRepoId

/-- The state change `unwrap_vec_normalize` handling applies to the
evaluation environment: both flags cleared when a wrapper is present. -/
def applyVecNorm (e : EvalEnv) : EvalEnv :=
  match e.vecnorm with
  | some vn => ⟨some { vn with training := false, norm_reward := false }⟩
  | none => e

/-! ## Concrete sample values used by examples and witnesses -/

def ppoStr : String := "ppo"
def dqnStr : String := "dqn"
def ppoClassStr : String := "PPO"
def acmeStr : String := "acme"
def cartStr : String := "CartPole-v1"
def slashedName : String := "a/b"
def frameskipStr : String := "frameskip"
def fourStr : String := "4"

/-- C1: for every run, the action-selection mode is resolved as: if the
`--stochastic` flag is set, or the environment is atari-like and the
`--deterministic` flag is not set, the run uses stochastic actions
(`is_deterministic = false`); in every other case it uses deterministic
actions (`is_deterministic = true`). -/
theorem action_mode_resolution (s d a : Bool) :
    (resolveIsDeterministic s d a = false ↔ (s = true ∨ (a = true ∧ d = false)))
    ∧ (resolveIsDeterministic s d a = true ↔ ¬(s = true ∨ (a = true ∧ d = false))) := by
  cases s <;> cases d <;> cases a <;>
    simp [resolveIsDeterministic, resolveStochastic]

/-- C3: the repository id passed to the packaging pipeline is the
organization, a slash, and the supplied repo name with every slash replaced
by a dash; with no supplied name the default repo name is
`<algo>-<env_id>`, so algo `ppo`, env `CartPole-v1`, organization `acme`
gives `acme/ppo-CartPole-v1`. -/
theorem repo_id_resolution (organization name algo env_id : String) :
    resolveRepoId organization (some name) algo env_id
        = organization ++ "/" ++ pyReplaceChar '/' '-' name
    ∧ resolveRepoName none algo env_id = algo ++ "-" ++ env_id
    ∧ resolveRepoId acmeStr none ppoStr cartStr = "acme/ppo-CartPole-v1"
    ∧ resolveRepoId acmeStr (some slashedName) ppoStr cartStr = "acme/a-b" := by
  refine ⟨rfl, rfl, by decide, by decide⟩

/-- C4: for every algorithm id in the fixed off-policy set
`{qrdqn, dqn, ddpg, sac, her, td3, tqc}` and every requested environment
count, the count actually used to build the evaluation environment is 1;
outside that set the requested count is used unchanged. -/
theorem n_envs_forced_off_policy (algo : String) (requested : Int) :
    (algo ∈ off_policy_algos → resolveNEnvs algo requested = 1)
    ∧ (algo ∉ off_policy_algos → resolveNEnvs algo requested = requested) := by
  constructor <;> intro h <;> simp [resolveNEnvs, h]

/-- C4 witness: `dqn` is off-policy and is forced to one environment;
`ppo` is not and keeps the requested count. -/
theorem n_envs_forced_off_policy_witness :
    (dqnStr ∈ off_policy_algos ∧ resolveNEnvs dqnStr 16 = 1)
    ∧ (ppoStr ∉ off_policy_algos ∧ resolveNEnvs ppoStr 16 = 16) :=
  ⟨⟨by decide, (n_envs_forced_off_policy dqnStr 16).1 (by decide)⟩,
   ⟨by decide, (n_envs_forced_off_policy ppoStr 16).2 (by decide)⟩⟩

/-- C7: the metadata mapping returned by `generate_model_card` contains the
supplied mean and std reward values unchanged. -/
theorem metadata_keeps_rewards (algo_name algo_class_name organization env_id : String)
    (mean_reward std_reward : ℚ) (hyperparams env_kwargs : List (String × String)) :
    (generate_model_card algo_name algo_class_name organization env_id
        mean_reward std_reward hyperparams env_kwargs).2.mean_reward = mean_reward
    ∧ (generate_model_card algo_name algo_class_name organization env_id
        mean_reward std_reward hyperparams env_kwargs).2.std_reward = std_reward :=
  ⟨rfl, rfl⟩

/-! ## Lookup lemmas for the `dict.update` model -/

theorem lookupKV_append (l₁ l₂ : List (String × String)) (k : String) :
    lookupKV (l₁ ++ l₂) k =
      match lookupKV l₁ k with
      | some v => some v
      | none => lookupKV l₂ k := by
  induction l₁ with
  | nil => simp [lookupKV]
  | cons p rest ih =>
    by_cases h : p.1 == k <;> simp [lookupKV, h, ih]

theorem lookupKV_map_update (base upd : List (String × String)) (k : String) :
    lookupKV (base.map fun p =>
      match lookupKV upd p.1 with
      | some v => (p.1, v)
      | none => p) k =
      match lookupKV base k, lookupKV upd k with
      | some _, some v => some v
      | some w, none => some w
      | none, _ => none := by
  induction base with
  | nil => simp [lookupKV]
  | cons p rest ih =>
    by_cases h : p.1 == k
    · have hk : p.1 = k := by simpa using h
      subst hk
      cases hu : lookupKV upd p.1 <;>
        simp [lookupKV, hu, List.map_cons]
    · cases hu' : lookupKV upd p.1 <;>
        simp [lookupKV, h, hu', ih]

theorem lookupKV_filter_new (base upd : List (String × String)) (k : String) :
    lookupKV (upd.filter fun q => (lookupKV base q.1).isNone) k =
      match lookupKV base k with
      | some _ => none
      | none => lookupKV upd k := by
  induction upd with
  | nil => cases lookupKV base k <;> simp [lookupKV]
  | cons q rest ih =>
    by_cases h : q.1 == k
    · have hk : q.1 = k := by simpa using h
      subst hk
      cases hb : lookupKV base q.1 <;>
        simp [lookupKV, hb, List.filter_cons, ih]
    · cases hb : lookupKV base q.1 <;>
      cases hq : (lookupKV base q.1).isNone <;>
        simp_all [lookupKV, List.filter_cons, ih]

theorem lookupKV_dictUpdate (base upd : List (String × String)) (k : String) :
    lookupKV (dictUpdate base upd) k =
      match lookupKV upd k with
      | some v => some v
      | none => lookupKV base k := by
  rw [dictUpdate, lookupKV_append, lookupKV_map_update, lookupKV_filter_new]
  cases lookupKV base k <;> cases lookupKV upd k <;> simp

/-- C10: the effective env_kwargs mapping starts from the mapping stored
under `env_kwargs` in the saved `args.yml` (empty if the file is absent or
the stored value is `None`) and is then overridden by any command-line
`--env-kwargs`: a key present on the command line takes the command-line
value, a key present only in the file keeps its stored value. -/
theorem env_kwargs_resolution (argsFile : Option SavedArgs)
    (c : List (String × String)) (k v : String) :
    (resolveEnvKwargs argsFile none = storedEnvKwargs argsFile)
    ∧ (storedEnvKwargs none = [] ∧ storedEnvKwargs (some ⟨none⟩) = [])
    ∧ (lookupKV c k = some v →
        lookupKV (resolveEnvKwargs argsFile (some c)) k = some v)
    ∧ (lookupKV c k = none →
        lookupKV (resolveEnvKwargs argsFile (some c)) k
          = lookupKV (storedEnvKwargs argsFile) k) := by
  have hbase : resolveEnvKwargs argsFile (some c) = dictUpdate (storedEnvKwargs argsFile) c := by
    cases argsFile with
    | none => rfl
    | some a => cases a.env_kwargs <;> simp [resolveEnvKwargs, storedEnvKwargs]
  refine ⟨?_, ⟨rfl, rfl⟩, ?_, ?_⟩
  · cases argsFile with
    | none => rfl
    | some a => cases a.env_kwargs <;> simp [resolveEnvKwargs, storedEnvKwargs]
  · intro h
    rw [hbase, lookupKV_dictUpdate, h]
  · intro h
    rw [hbase, lookupKV_dictUpdate, h]

/-- C10 witness: a command-line assignment of `frameskip` wins over the
stored file mapping. -/
theorem env_kwargs_resolution_witness :
    (lookupKV [(frameskipStr, fourStr)] frameskipStr = some fourStr)
    ∧ lookupKV (resolveEnvKwargs (some ⟨some [(cartStr, acmeStr)]⟩)
        (some [(frameskipStr, fourStr)])) frameskipStr = some fourStr :=
  ⟨by decide,
   (env_kwargs_resolution (some ⟨some [(cartStr, acmeStr)]⟩)
      [(frameskipStr, fourStr)] frameskipStr fourStr).2.2.1 (by decide)⟩

/-! ## Substring lemmas for the Environment Arguments section -/

theorem beginsWith_append (pat l l₂ : List Char) (h : beginsWith pat l = true) :
    beginsWith pat (l ++ l₂) = true := by
  induction pat generalizing l with
  | nil => simp [beginsWith]
  | cons a pa ih =>
    cases l with
    | nil => simp [beginsWith] at h
    | cons b bl =>
      simp [beginsWith] at h ⊢
      exact ⟨h.1, ih bl h.2⟩

theorem containsSub_nil_pat (l : List Char) : containsSub [] l = true := by
  cases l <;> simp [containsSub, beginsWith]

theorem containsSub_append_left (pat l₁ l₂ : List Char)
    (h : containsSub pat l₁ = true) : containsSub pat (l₁ ++ l₂) = true := by
  induction l₁ with
  | nil =>
    have hp : pat = [] := by
      cases pat with
      | nil => rfl
      | cons a pa => simp [containsSub, beginsWith] at h
    subst hp
    exact containsSub_nil_pat l₂
  | cons b bl ih =>
    simp only [containsSub, Bool.or_eq_true] at h
    rcases h with h | h
    · simp only [List.cons_append, containsSub, Bool.or_eq_true]
      exact Or.inl (beginsWith_append pat (b :: bl) l₂ h)
    · simp only [List.cons_append, containsSub, Bool.or_eq_true]
      exact Or.inr (ih h)

theorem containsSub_append_right (pat l₁ l₂ : List Char)
    (h : containsSub pat l₂ = true) : containsSub pat (l₁ ++ l₂) = true := by
  induction l₁ with
  | nil => exact h
  | cons b bl ih =>
    simp only [List.cons_append, containsSub, Bool.or_eq_true]
    exact Or.inr ih

theorem generate_model_card_append_section (algo_name algo_class_name organization
    env_id : String) (mean_reward std_reward : ℚ)
    (hyperparams : List (String × String)) (q : String × String)
    (rest : List (String × String)) :
    (generate_model_card algo_name algo_class_name organization env_id mean_reward
        std_reward hyperparams (q :: rest)).1
      = (generate_model_card algo_name algo_class_name organization env_id mean_reward
          std_reward hyperparams []).1
        ++ (envArgsSectionHead ++ pformat (q :: rest) ++ envArgsSectionTail) := by
  simp [generate_model_card]

def cexEnvId : String := "# Environment Arguments"

/-- C2 counterexample: the claimed equivalence is quantified over every
input, but an environment id that itself contains the section header makes
the card mention `# Environment Arguments` although `env_kwargs` is empty. -/
theorem env_args_section_not_iff_cex :
    ¬ (mentionsEnvArgs (generate_model_card ppoStr ppoClassStr acmeStr cexEnvId
        0 0 [] []).1 = true
      ↔ ([] : List (String × String)) ≠ []) := by
  decide

/-- C2 (amended): provided the interpolated inputs do not themselves
introduce the section header (formally: the card generated with empty
`env_kwargs` does not contain `# Environment Arguments`), the generated
card contains that section header iff `env_kwargs` is non-empty. -/
theorem env_args_section_iff (algo_name algo_class_name organization env_id : String)
    (mean_reward std_reward : ℚ) (hyperparams : List (String × String))
    (hbase : mentionsEnvArgs (generate_model_card algo_name algo_class_name
      organization env_id mean_reward std_reward hyperparams []).1 = false) :
    ∀ env_kwargs : List (String × String),
      mentionsEnvArgs (generate_model_card algo_name algo_class_name organization
          env_id mean_reward std_reward hyperparams env_kwargs).1 = true
        ↔ env_kwargs ≠ [] := by
  intro kw
  cases kw with
  | nil => simp [hbase]
  | cons q rest =>
    have hne : (q :: rest : List (String × String)) ≠ [] := by simp
    rw [generate_model_card_append_section]
    have h1 : containsSub envArgsMarker.data envArgsSectionHead.data = true := by decide
    have h2 := containsSub_append_left envArgsMarker.data envArgsSectionHead.data
      (pformat (q :: rest)).data h1
    have h3 := containsSub_append_left envArgsMarker.data
      (envArgsSectionHead.data ++ (pformat (q :: rest)).data)
      envArgsSectionTail.data h2
    exact iff_of_true
      (containsSub_append_right envArgsMarker.data
        (generate_model_card algo_name algo_class_name organization env_id
          mean_reward std_reward hyperparams []).1.data
        ((envArgsSectionHead.data ++ (pformat (q :: rest)).data)
          ++ envArgsSectionTail.data) h3)
      hne

/-- C2 witness for the amended statement: with ordinary inputs the empty
mapping yields no Environment Arguments section and a non-empty mapping
yields one. -/
theorem env_args_section_iff_witness :
    (mentionsEnvArgs (generate_model_card ppoStr ppoClassStr acmeStr cartStr
        0 0 [] []).1 = false)
    ∧ (mentionsEnvArgs (generate_model_card ppoStr ppoClassStr acmeStr cartStr
        0 0 [] [(frameskipStr, fourStr)]).1 = true
      ↔ ([(frameskipStr, fourStr)] : List (String × String)) ≠ []) :=
  ⟨by decide,
   env_args_section_iff ppoStr ppoClassStr acmeStr cartStr 0 0 [] (by decide)
     [(frameskipStr, fourStr)]⟩

/-! ## Event discriminators and extractors -/

def Event.isSavedModel : Event → Bool
  | .savedModel => true
  | _ => false

def Event.isEvaluated : Event → Bool
  | .evaluated _ _ _ => true
  | _ => false

def Event.isGeneratedCard : Event → Bool
  | .generatedCard _ _ => true
  | _ => false

def Event.isGeneratedVideo : Event → Bool
  | .generatedVideo _ => true
  | _ => false

/-- The reward pairs recorded by evaluation events, in order. -/
def evalPayloads (l : List Event) : List (ℚ × ℚ) :=
  l.filterMap fun e =>
    match e with
    | .evaluated _ m s => some (m, s)
    | _ => none

/-- The reward pairs consumed by card-generation events, in order. -/
def cardPayloads (l : List Event) : List (ℚ × ℚ) :=
  l.filterMap fun e =>
    match e with
    | .generatedCard m s => some (m, s)
    | _ => none

/-- The environment snapshots passed to the evaluation, in order. -/
def evaluatedEnvs (l : List Event) : List EvalEnv :=
  l.filterMap fun e =>
    match e with
    | .evaluated env _ _ => some env
    | _ => none

/-! ## Filesystem lemmas -/

theorem fsLookup_fsRemove_ne (fs : FS) (p q : FilePath') (h : q ≠ p) :
    fsLookup (fsRemove fs p) q = fsLookup fs q := by
  induction fs with
  | nil => rfl
  | cons e rest ih =>
    rcases eq_or_ne e.1 p with he | he
    · have hep : (e.1 == p) = true := by simpa using he
      have hq : (e.1 == q) = false := by
        simp only [beq_eq_false_iff_ne, ne_eq]
        exact fun hh => h (hh ▸ he)
      simp [fsRemove, hep, fsLookup, hq, ih]
    · have hep : (e.1 == p) = false := by simpa using he
      by_cases heq : e.1 = q
      · have hq : (e.1 == q) = true := by simpa using heq
        simp [fsRemove, hep, fsLookup, hq]
      · have hq : (e.1 == q) = false := by simpa using heq
        simp [fsRemove, hep, fsLookup, hq, ih]

theorem fsLookup_fsWrite_self (fs : FS) (p : FilePath') (c : Content) :
    fsLookup (fsWrite fs p c) p = some c := by
  simp [fsWrite, fsLookup]

theorem fsLookup_fsWrite_ne (fs : FS) (p q : FilePath') (c : Content) (h : q ≠ p) :
    fsLookup (fsWrite fs p c) q = fsLookup fs q := by
  have hq : (p == q) = false := by
    simp only [beq_eq_false_iff_ne, ne_eq]
    exact fun hh => h hh.symm
  simp [fsWrite, fsLookup, hq, fsLookup_fsRemove_ne fs p q h]

theorem lookup_isSome_of_mem_fsPaths (fs : FS) (p : FilePath')
    (h : p ∈ fsPaths fs) : (fsLookup fs p).isSome = true := by
  induction fs with
  | nil => simp [fsPaths] at h
  | cons e rest ih =>
    by_cases he : e.1 = p
    · have : (e.1 == p) = true := by simpa using he
      simp [fsLookup, this]
    · have hbeq : (e.1 == p) = false := by simpa using he
      have hc : p ∈ e.1 :: fsPaths rest := h
      have hmem : p ∈ fsPaths rest := by
        rcases List.mem_cons.mp hc with h' | h'
        · exact absurd h'.symm he
        · exact h'
      simp [fsLookup, hbeq, ih hmem]

theorem glob_meta_mem (fs : FS) (p : FilePath') (h : p ∈ globCwdMetaJson fs) :
    p.length = 1 ∧ p ∈ fsPaths fs := by
  have h' := List.mem_filter.mp h
  refine ⟨?_, h'.1⟩
  have hpred := h'.2
  cases p with
  | nil => simp at hpred
  | cons a t =>
    cases t with
    | nil => rfl
    | cons b t' => simp at hpred

/-- The cleanup step always succeeds, and it only ever removes
working-directory (single-component) paths. -/
theorem cleanupTempFiles_spec (fs : FS) :
    ∃ fs', cleanupTempFiles fs = Except.ok fs'
      ∧ ∀ p : FilePath', p.length ≠ 1 → fsLookup fs' p = fsLookup fs p := by
  unfold cleanupTempFiles
  by_cases h1 : (fsLookup fs testMp4Path).isSome
  · rw [if_pos h1]
    unfold pathUnlink
    rw [if_pos h1]
    cases hg : globCwdMetaJson (fsRemove fs testMp4Path) with
    | nil =>
      refine ⟨fsRemove fs testMp4Path, by simp [hg], ?_⟩
      intro p hp
      have hne : p ≠ testMp4Path := by
        intro hc; exact hp (by rw [hc]; rfl)
      exact fsLookup_fsRemove_ne fs testMp4Path p hne
    | cons q t =>
      have hq : q ∈ globCwdMetaJson (fsRemove fs testMp4Path) := by
        rw [hg]; exact List.mem_cons_self q t
      obtain ⟨hqlen, hqmem⟩ := glob_meta_mem _ q hq
      have hqsome := lookup_isSome_of_mem_fsPaths _ q hqmem
      refine ⟨fsRemove (fsRemove fs testMp4Path) q, ?_, ?_⟩
      · simp [hg, pathUnlink, hqsome]
      · intro p hp
        have hne1 : p ≠ testMp4Path := by
          intro hc; exact hp (by rw [hc]; rfl)
        have hne2 : p ≠ q := by
          intro hc; exact hp (by rw [hc, hqlen])
        rw [fsLookup_fsRemove_ne _ q p hne2, fsLookup_fsRemove_ne fs testMp4Path p hne1]
  · rw [if_neg h1]
    cases hg : globCwdMetaJson fs with
    | nil => exact ⟨fs, by simp [hg], fun p _ => rfl⟩
    | cons q t =>
      have hq : q ∈ globCwdMetaJson fs := by
        rw [hg]; exact List.mem_cons_self q t
      obtain ⟨hqlen, hqmem⟩ := glob_meta_mem _ q hq
      have hqsome := lookup_isSome_of_mem_fsPaths _ q hqmem
      refine ⟨fsRemove fs q, ?_, ?_⟩
      · simp [hg, pathUnlink, hqsome]
      · intro p hp
        have hne : p ≠ q := by
          intro hc; exact hp (by rw [hc, hqlen])
        exact fsLookup_fsRemove_ne fs q p hne

/-- The model archive name `<model_name>.zip` can never collide with
`vec_normalize.pkl`. -/
theorem vecname_ne_zipname (m : String) : vecNormalizeName ≠ m ++ zipExt := by
  intro h
  have hd : vecNormalizeName.data = m.data ++ zipExt.data := congrArg String.data h
  have hlast : vecNormalizeName.data.getLast? = (m.data ++ zipExt.data).getLast? := by
    rw [hd]
  rw [List.getLast?_append] at hlast
  have hz : zipExt.data.getLast? = some 'p' := by decide
  rw [hz] at hlast
  simp only [Option.or] at hlast
  exact absurd hlast (by decide)

/-- The filesystem produced by the (always succeeding) cleanup step. -/
def cleanupResult (fs : FS) : FS :=
  match cleanupTempFiles fs with
  | Except.ok fs' => fs'
  | Except.error _ => fs

theorem cleanupTempFiles_eq (fs : FS) :
    cleanupTempFiles fs = Except.ok (cleanupResult fs) := by
  obtain ⟨fs', hok, _⟩ := cleanupTempFiles_spec fs
  simp [cleanupResult, hok]

theorem cleanupResult_lookup (fs : FS) (p : FilePath') (hp : p.length ≠ 1) :
    fsLookup (cleanupResult fs) p = fsLookup fs p := by
  obtain ⟨fs', hok, hpres⟩ := cleanupTempFiles_spec fs
  have hr : cleanupResult fs = fs' := by simp [cleanupResult, hok]
  rw [hr]
  exact hpres p hp

theorem path3_ne_path1 (a b c d : String) : ([a, b, c] : FilePath') ≠ [d] := by
  simp

theorem path3_ne_of_name_ne (a b : String) {c d : String} (h : c ≠ d) :
    ([a, b, c] : FilePath') ≠ [a, b, d] := by
  intro hc
  exact h (by simpa using hc)

/-- The event trace of a successful run, as a function of the branch data:
whether a `VecNormalize` wrapper was present and whether a video was
generated. -/
def runEvents (repo_id : String) (eval_env : EvalEnv) (ms : ℚ × ℚ)
    (generate_video : Bool) : List Event :=
  [Event.createRepo repo_id, Event.gitPull, Event.lfsTrack, Event.savedModel]
  ++ (match eval_env.vecnorm with
      | some _ => [Event.savedVecNormalize]
      | none => [])
  ++ [Event.extractedModel, Event.copiedConfigs, Event.dumpedEnvKwargs,
      Event.zippedMetrics, Event.evaluated (applyVecNorm eval_env) ms.1 ms.2]
  ++ (if generate_video then
        [Event.generatedVideo (applyVecNorm eval_env), Event.cleanedTempFiles]
      else [])
  ++ [Event.generatedCard ms.1 ms.2, Event.savedCard, Event.pushed]

/-- Characterization of every successful `packageToHub` run: the trace is
`runEvents`, the final filesystem is `save_model_card` applied to some
intermediate filesystem, and that intermediate filesystem holds the
`vec_normalize.pkl` statistics exactly when a wrapper was present. -/
theorem package_to_hub_run_shape
    (evalAgent : String → EvalEnv → Nat → Bool → ℚ × ℚ) (fs0 : FS)
    (model model_name algo_name algo_class_name : String) (log_path : FilePath')
    (hyperparams env_kwargs : List (String × String)) (env_id : String)
    (eval_env : EvalEnv) (repo_id : String) (is_deterministic : Bool)
    (n_eval_episodes : Nat) (local_repo_path : String) (video_length : Nat)
    (generate_video : Bool) (r : PkgResult)
    (h : packageToHub evalAgent fs0 model model_name algo_name algo_class_name
      log_path hyperparams env_kwargs env_id eval_env repo_id is_deterministic
      n_eval_episodes local_repo_path video_length generate_video = Except.ok r) :
    ∃ (organization repo_name : String) (fsMid : FS),
      pySplit '/' repo_id = [organization, repo_name]
      ∧ r.events = runEvents repo_id eval_env
          (evalAgent model (applyVecNorm eval_env) n_eval_episodes is_deterministic)
          generate_video
      ∧ r.fs = save_model_card fsMid [local_repo_path, repo_name]
          (generate_model_card algo_name algo_class_name organization env_id
            (evalAgent model (applyVecNorm eval_env) n_eval_episodes is_deterministic).1
            (evalAgent model (applyVecNorm eval_env) n_eval_episodes is_deterministic).2
            hyperparams env_kwargs).1
          (generate_model_card algo_name algo_class_name organization env_id
            (evalAgent model (applyVecNorm eval_env) n_eval_episodes is_deterministic).1
            (evalAgent model (applyVecNorm eval_env) n_eval_episodes is_deterministic).2
            hyperparams env_kwargs).2
      ∧ (∀ vn, eval_env.vecnorm = some vn → model_name ≠ vecNormalizeName →
          fsLookup fsMid [local_repo_path, repo_name, vecNormalizeName]
            = some (Content.vecNormalizePkl vn))
      ∧ (eval_env.vecnorm = none → model_name ≠ vecNormalizeName →
          fsLookup fsMid [local_repo_path, repo_name, vecNormalizeName]
            = fsLookup fs0 [local_repo_path, repo_name, vecNormalizeName]) := by
  simp only [packageToHub, List.cons_append, List.nil_append] at h
  split at h
  rotate_left
  · simp at h
  rename_i organization repo_name hsplit
  cases hvn : eval_env.vecnorm with
  | some vn =>
    rw [hvn] at h
    simp only [] at h
    rw [fsLookup_fsWrite_ne _ _ _ _
      (path3_ne_of_name_ne local_repo_path repo_name
        (Ne.symm (vecname_ne_zipname model_name))),
      fsLookup_fsWrite_self] at h
    simp only [] at h
    split at h
    rotate_left
    · simp at h
    rename_i cArgs hargs
    split at h
    rotate_left
    · simp at h
    rename_i cConfig hconfig
    split at h
    rotate_left
    · simp at h
    rename_i fsv evv hv
    by_cases hgv : generate_video = true
    · rw [if_pos hgv, cleanupTempFiles_eq] at hv
      simp only [] at hv
      injection hv with hpair
      injection hpair with hfs hev
      subst hfs
      subst hev
      injection h with hX
      subst hX
      simp only [applyVecNorm, hvn]
      refine ⟨organization, repo_name, _, hsplit, ?_, rfl, ?_, ?_⟩
      · simp only [runEvents, applyVecNorm, hvn, hgv, if_true, List.cons_append,
          List.nil_append]
      · intro vn' hvn' hmn
        cases hvn'
        rw [cleanupResult_lookup _ _ (by simp),
          fsLookup_fsWrite_ne _ _ _ _ (by simp [testMetaPath]),
          fsLookup_fsWrite_ne _ _ _ _ (by simp [testMp4Path]),
          fsLookup_fsWrite_ne _ _ _ _ (path3_ne_of_name_ne _ _ (by decide)),
          fsLookup_fsWrite_ne _ _ _ _ (path3_ne_of_name_ne _ _ (by decide)),
          fsLookup_fsWrite_ne _ _ _ _ (path3_ne_of_name_ne _ _ (by decide)),
          fsLookup_fsWrite_ne _ _ _ _ (path3_ne_of_name_ne _ _ (by decide)),
          fsLookup_fsWrite_ne _ _ _ _ (path3_ne_of_name_ne _ _ (by decide)),
          fsLookup_fsWrite_ne _ _ _ _ (path3_ne_of_name_ne _ _ (Ne.symm hmn)),
          fsLookup_fsWrite_self]
      · intro hnone
        simp at hnone
    · rw [if_neg hgv] at hv
      injection hv with hpair
      injection hpair with hfs hev
      subst hfs
      subst hev
      injection h with hX
      subst hX
      have hgv' : generate_video = false := by simpa using hgv
      simp only [applyVecNorm, hvn]
      refine ⟨organization, repo_name, _, hsplit, ?_, rfl, ?_, ?_⟩
      · simp only [runEvents, applyVecNorm, hvn, hgv', if_false, Bool.false_eq_true,
          List.cons_append, List.nil_append, List.append_nil]
      · intro vn' hvn' hmn
        cases hvn'
        rw [fsLookup_fsWrite_ne _ _ _ _ (path3_ne_of_name_ne _ _ (by decide)),
          fsLookup_fsWrite_ne _ _ _ _ (path3_ne_of_name_ne _ _ (by decide)),
          fsLookup_fsWrite_ne _ _ _ _ (path3_ne_of_name_ne _ _ (by decide)),
          fsLookup_fsWrite_ne _ _ _ _ (path3_ne_of_name_ne _ _ (by decide)),
          fsLookup_fsWrite_ne _ _ _ _ (path3_ne_of_name_ne _ _ (Ne.symm hmn)),
          fsLookup_fsWrite_self]
      · intro hnone
        simp at hnone
  | none =>
    rw [hvn] at h
    simp only [] at h
    rw [fsLookup_fsWrite_self] at h
    simp only [] at h
    split at h
    rotate_left
    · simp at h
    rename_i cArgs hargs
    split at h
    rotate_left
    · simp at h
    rename_i cConfig hconfig
    split at h
    rotate_left
    · simp at h
    rename_i fsv evv hv
    by_cases hgv : generate_video = true
    · rw [if_pos hgv, cleanupTempFiles_eq] at hv
      simp only [] at hv
      injection hv with hpair
      injection hpair with hfs hev
      subst hfs
      subst hev
      injection h with hX
      subst hX
      simp only [applyVecNorm, hvn]
      refine ⟨organization, repo_name, _, hsplit, ?_, rfl, ?_, ?_⟩
      · simp only [runEvents, applyVecNorm, hvn, hgv, if_true, List.cons_append,
          List.nil_append]
      · intro vn' hvn' _
        simp at hvn'
      · intro _ hmn
        rw [cleanupResult_lookup _ _ (by simp),
          fsLookup_fsWrite_ne _ _ _ _ (by simp [testMetaPath]),
          fsLookup_fsWrite_ne _ _ _ _ (by simp [testMp4Path]),
          fsLookup_fsWrite_ne _ _ _ _ (path3_ne_of_name_ne _ _ (by decide)),
          fsLookup_fsWrite_ne _ _ _ _ (path3_ne_of_name_ne _ _ (by decide)),
          fsLookup_fsWrite_ne _ _ _ _ (path3_ne_of_name_ne _ _ (by decide)),
          fsLookup_fsWrite_ne _ _ _ _ (path3_ne_of_name_ne _ _ (by decide)),
          fsLookup_fsWrite_ne _ _ _ _ (path3_ne_of_name_ne _ _ (by decide)),
          fsLookup_fsWrite_ne _ _ _ _ (path3_ne_of_name_ne _ _ (Ne.symm hmn)),
          fsLookup_fsWrite_ne _ _ _ _
            (path3_ne_of_name_ne _ _ (vecname_ne_zipname model_name))]
    · rw [if_neg hgv] at hv
      injection hv with hpair
      injection hpair with hfs hev
      subst hfs
      subst hev
      injection h with hX
      subst hX
      have hgv' : generate_video = false := by simpa using hgv
      simp only [applyVecNorm, hvn]
      refine ⟨organization, repo_name, _, hsplit, ?_, rfl, ?_, ?_⟩
      · simp only [runEvents, applyVecNorm, hvn, hgv', if_false, Bool.false_eq_true,
          List.cons_append, List.nil_append, List.append_nil]
      · intro vn' hvn' _
        simp at hvn'
      · intro _ hmn
        rw [fsLookup_fsWrite_ne _ _ _ _ (path3_ne_of_name_ne _ _ (by decide)),
          fsLookup_fsWrite_ne _ _ _ _ (path3_ne_of_name_ne _ _ (by decide)),
          fsLookup_fsWrite_ne _ _ _ _ (path3_ne_of_name_ne _ _ (by decide)),
          fsLookup_fsWrite_ne _ _ _ _ (path3_ne_of_name_ne _ _ (by decide)),
          fsLookup_fsWrite_ne _ _ _ _ (path3_ne_of_name_ne _ _ (Ne.symm hmn)),
          fsLookup_fsWrite_ne _ _ _ _
            (path3_ne_of_name_ne _ _ (vecname_ne_zipname model_name))]
/-- C5: in every execution of `package_to_hub`, the model is saved to the
local clone before the agent is evaluated, evaluation completes before the
model card is generated (the card consumes exactly the evaluation reward
pair), and video generation, when enabled, also happens before card
generation. -/
theorem package_to_hub_step_order
    (evalAgent : String → EvalEnv → Nat → Bool → ℚ × ℚ) (fs0 : FS)
    (model model_name algo_name algo_class_name : String) (log_path : FilePath')
    (hyperparams env_kwargs : List (String × String)) (env_id : String)
    (eval_env : EvalEnv) (repo_id : String) (is_deterministic : Bool)
    (n_eval_episodes : Nat) (local_repo_path : String) (video_length : Nat)
    (generate_video : Bool) (r : PkgResult)
    (h : packageToHub evalAgent fs0 model model_name algo_name algo_class_name
      log_path hyperparams env_kwargs env_id eval_env repo_id is_deterministic
      n_eval_episodes local_repo_path video_length generate_video = Except.ok r) :
    r.events.any Event.isSavedModel = true
    ∧ r.events.any Event.isEvaluated = true
    ∧ r.events.any Event.isGeneratedCard = true
    ∧ r.events.findIdx Event.isSavedModel < r.events.findIdx Event.isEvaluated
    ∧ r.events.findIdx Event.isEvaluated < r.events.findIdx Event.isGeneratedCard
    ∧ (generate_video = true →
        r.events.any Event.isGeneratedVideo = true
        ∧ r.events.findIdx Event.isGeneratedVideo
            < r.events.findIdx Event.isGeneratedCard)
    ∧ cardPayloads r.events = evalPayloads r.events := by
  obtain ⟨org, rn, fsMid, hsplit, hev, hfs, hD, hE⟩ :=
    package_to_hub_run_shape evalAgent fs0 model model_name algo_name
      algo_class_name log_path hyperparams env_kwargs env_id eval_env repo_id
      is_deterministic n_eval_episodes local_repo_path video_length
      generate_video r h
  rw [hev]
  cases hvn : eval_env.vecnorm <;> cases hgv : generate_video <;>
    simp [runEvents, hvn, applyVecNorm, Event.isSavedModel, Event.isEvaluated,
      Event.isGeneratedCard, Event.isGeneratedVideo, evalPayloads, cardPayloads,
      List.findIdx_cons]

/-! ## A concrete successful run, used by the witnesses -/

def logsStr : String := "logs"
def hubStr : String := "hub"

/-- A fixed evaluation function returning mean reward 1 and std 0. -/
def exampleEvalAgent : String → EvalEnv → Nat → Bool → ℚ × ℚ := fun _ _ _ _ => (1, 0)

def exampleVecNorm : VecNormalize :=
  { stats := cartStr, training := true, norm_reward := true }

def exampleEnv : EvalEnv := ⟨some exampleVecNorm⟩

def exampleModelName : String := defaultModelName ppoStr cartStr

def exampleRepoId : String := resolveRepoId acmeStr none ppoStr cartStr

/-- Local clone state after the pull: the saved `args.yml` and `config.yml`
are present in the log folder. -/
def exampleFs0 : FS :=
  [([logsStr, cartStr, argsYmlName], Content.text argsYmlName),
   ([logsStr, cartStr, configYmlName], Content.text configYmlName)]

def exampleRun : Except String PkgResult :=
  packageToHub exampleEvalAgent exampleFs0 ppoStr exampleModelName ppoStr
    ppoClassStr [logsStr] [] [] cartStr exampleEnv exampleRepoId true 10 hubStr
    1000 true

def exampleResult : PkgResult :=
  match exampleRun with
  | Except.ok r => r
  | Except.error _ => ⟨[], [], ""⟩

/-- C5 witness: on a concrete successful run the events are ordered as the
claim states. -/
theorem package_to_hub_step_order_witness :
    exampleRun = Except.ok exampleResult
    ∧ exampleResult.events.findIdx Event.isSavedModel
        < exampleResult.events.findIdx Event.isEvaluated
    ∧ exampleResult.events.findIdx Event.isEvaluated
        < exampleResult.events.findIdx Event.isGeneratedCard
    ∧ exampleResult.events.any Event.isGeneratedVideo = true :=
  ⟨rfl,
   (package_to_hub_step_order exampleEvalAgent exampleFs0 ppoStr exampleModelName
      ppoStr ppoClassStr [logsStr] [] [] cartStr exampleEnv exampleRepoId true 10
      hubStr 1000 true exampleResult rfl).2.2.2.1,
   (package_to_hub_step_order exampleEvalAgent exampleFs0 ppoStr exampleModelName
      ppoStr ppoClassStr [logsStr] [] [] cartStr exampleEnv exampleRepoId true 10
      hubStr 1000 true exampleResult rfl).2.2.2.2.1,
   ((package_to_hub_step_order exampleEvalAgent exampleFs0 ppoStr exampleModelName
      ppoStr ppoClassStr [logsStr] [] [] cartStr exampleEnv exampleRepoId true 10
      hubStr 1000 true exampleResult rfl).2.2.2.2.2.1 rfl).1⟩

/-- C8: the model card is written once and never mutated afterward:
`save_model_card` writes the generated Markdown (with its embedded metadata)
to `README.md`, and the final filesystem still holds exactly that content —
no subsequent step of the run modifies the file. -/
theorem readme_written_once
    (evalAgent : String → EvalEnv → Nat → Bool → ℚ × ℚ) (fs0 : FS)
    (model model_name algo_name algo_class_name : String) (log_path : FilePath')
    (hyperparams env_kwargs : List (String × String)) (env_id : String)
    (eval_env : EvalEnv) (repo_id : String) (is_deterministic : Bool)
    (n_eval_episodes : Nat) (local_repo_path : String) (video_length : Nat)
    (generate_video : Bool) (r : PkgResult) (organization repo_name : String)
    (hsplit : pySplit '/' repo_id = [organization, repo_name])
    (h : packageToHub evalAgent fs0 model model_name algo_name algo_class_name
      log_path hyperparams env_kwargs env_id eval_env repo_id is_deterministic
      n_eval_episodes local_repo_path video_length generate_video = Except.ok r) :
    fsLookup r.fs [local_repo_path, repo_name, readmeName]
      = some (Content.readme
          (generate_model_card algo_name algo_class_name organization env_id
            (evalAgent model (applyVecNorm eval_env) n_eval_episodes is_deterministic).1
            (evalAgent model (applyVecNorm eval_env) n_eval_episodes is_deterministic).2
            hyperparams env_kwargs).2
          (generate_model_card algo_name algo_class_name organization env_id
            (evalAgent model (applyVecNorm eval_env) n_eval_episodes is_deterministic).1
            (evalAgent model (applyVecNorm eval_env) n_eval_episodes is_deterministic).2
            hyperparams env_kwargs).1) := by
  obtain ⟨org', rn', fsMid, hsplit', hev, hfs, hD, hE⟩ :=
    package_to_hub_run_shape evalAgent fs0 model model_name algo_name
      algo_class_name log_path hyperparams env_kwargs env_id eval_env repo_id
      is_deterministic n_eval_episodes local_repo_path video_length
      generate_video r h
  rw [hsplit] at hsplit'
  obtain ⟨ho, hr⟩ := (by simpa using hsplit' : organization = org' ∧ repo_name = rn')
  subst ho
  subst hr
  rw [hfs]
  simp only [save_model_card, List.cons_append, List.nil_append]
  rw [fsLookup_fsWrite_self]

/-- C8 witness: on the concrete run the final `README.md` content is the
generated card with its metadata. -/
theorem readme_written_once_witness :
    pySplit '/' exampleRepoId = [acmeStr, exampleModelName]
    ∧ fsLookup exampleResult.fs [hubStr, exampleModelName, readmeName]
        = some (Content.readme
            (generate_model_card ppoStr ppoClassStr acmeStr cartStr 1 0 [] []).2
            (generate_model_card ppoStr ppoClassStr acmeStr cartStr 1 0 [] []).1) :=
  ⟨by decide,
   readme_written_once exampleEvalAgent exampleFs0 ppoStr exampleModelName ppoStr
     ppoClassStr [logsStr] [] [] cartStr exampleEnv exampleRepoId true 10 hubStr
     1000 true exampleResult acmeStr exampleModelName (by decide) rfl⟩

/-- C9: when the evaluation environment carries a `VecNormalize` wrapper,
its statistics are saved to `vec_normalize.pkl` with the original attribute
values (so the save happens before the mutation) and the subsequent
evaluation sees `training = false` and `norm_reward = false`; without a
wrapper, nothing is saved there and the environment reaches evaluation
unchanged. -/
theorem vec_normalize_save_order
    (evalAgent : String → EvalEnv → Nat → Bool → ℚ × ℚ) (fs0 : FS)
    (model model_name algo_name algo_class_name : String) (log_path : FilePath')
    (hyperparams env_kwargs : List (String × String)) (env_id : String)
    (eval_env : EvalEnv) (repo_id : String) (is_deterministic : Bool)
    (n_eval_episodes : Nat) (local_repo_path : String) (video_length : Nat)
    (generate_video : Bool) (r : PkgResult) (organization repo_name : String)
    (hsplit : pySplit '/' repo_id = [organization, repo_name])
    (h : packageToHub evalAgent fs0 model model_name algo_name algo_class_name
      log_path hyperparams env_kwargs env_id eval_env repo_id is_deterministic
      n_eval_episodes local_repo_path video_length generate_video = Except.ok r) :
    (∀ vn, eval_env.vecnorm = some vn → model_name ≠ vecNormalizeName →
        fsLookup r.fs [local_repo_path, repo_name, vecNormalizeName]
          = some (Content.vecNormalizePkl vn)
        ∧ evaluatedEnvs r.events
            = [⟨some { vn with training := false, norm_reward := false }⟩])
    ∧ (eval_env.vecnorm = none →
        Event.savedVecNormalize ∉ r.events
        ∧ evaluatedEnvs r.events = [eval_env]
        ∧ (model_name ≠ vecNormalizeName →
            fsLookup fs0 [local_repo_path, repo_name, vecNormalizeName] = none →
            fsLookup r.fs [local_repo_path, repo_name, vecNormalizeName] = none)) := by
  obtain ⟨org', rn', fsMid, hsplit', hev, hfs, hD, hE⟩ :=
    package_to_hub_run_shape evalAgent fs0 model model_name algo_name
      algo_class_name log_path hyperparams env_kwargs env_id eval_env repo_id
      is_deterministic n_eval_episodes local_repo_path video_length
      generate_video r h
  rw [hsplit] at hsplit'
  obtain ⟨ho, hr⟩ := (by simpa using hsplit' : organization = org' ∧ repo_name = rn')
  subst ho
  subst hr
  have hkeep : fsLookup r.fs [local_repo_path, repo_name, vecNormalizeName]
      = fsLookup fsMid [local_repo_path, repo_name, vecNormalizeName] := by
    rw [hfs]
    simp only [save_model_card, List.cons_append, List.nil_append]
    rw [fsLookup_fsWrite_ne _ _ _ _ (path3_ne_of_name_ne _ _ (by decide)),
      fsLookup_fsWrite_ne _ _ _ _ (path3_ne_of_name_ne _ _ (by decide))]
  constructor
  · intro vn hvn hmn
    refine ⟨?_, ?_⟩
    · rw [hkeep]
      exact hD vn hvn hmn
    · rw [hev]
      cases hgv : generate_video <;>
        simp [runEvents, hvn, applyVecNorm, evaluatedEnvs, List.filterMap_cons]
  · intro hvn
    refine ⟨?_, ?_, ?_⟩
    · rw [hev]
      cases hgv : generate_video <;>
        simp [runEvents, hvn, applyVecNorm]
    · rw [hev]
      cases hgv : generate_video <;>
        simp [runEvents, hvn, applyVecNorm, evaluatedEnvs, List.filterMap_cons]
    · intro hmn h0
      rw [hkeep, hE hvn hmn, h0]

/-- C9 witness: the concrete run carries a wrapper whose original attribute
values are saved, while evaluation sees both flags false. -/
theorem vec_normalize_save_order_witness :
    exampleEnv.vecnorm = some exampleVecNorm
    ∧ exampleModelName ≠ vecNormalizeName
    ∧ fsLookup exampleResult.fs [hubStr, exampleModelName, vecNormalizeName]
        = some (Content.vecNormalizePkl exampleVecNorm)
    ∧ evaluatedEnvs exampleResult.events
        = [⟨some { exampleVecNorm with training := false, norm_reward := false }⟩] :=
  ⟨rfl, by decide,
   ((vec_normalize_save_order exampleEvalAgent exampleFs0 ppoStr exampleModelName
      ppoStr ppoClassStr [logsStr] [] [] cartStr exampleEnv exampleRepoId true 10
      hubStr 1000 true exampleResult acmeStr exampleModelName (by decide) rfl).1
      exampleVecNorm rfl (by decide)).1,
   ((vec_normalize_save_order exampleEvalAgent exampleFs0 ppoStr exampleModelName
      ppoStr ppoClassStr [logsStr] [] [] cartStr exampleEnv exampleRepoId true 10
      hubStr 1000 true exampleResult acmeStr exampleModelName (by decide) rfl).1
      exampleVecNorm rfl (by decide)).2⟩

/-- C6: the temp-file cleanup step never raises when `test.mp4` and the
`*.meta.json` files do not exist: every deletion is guarded by an existence
check, so in their absence the step succeeds and leaves the filesystem
unchanged. -/
theorem cleanup_missing_files_noop (fs : FS)
    (h1 : fsLookup fs testMp4Path = none)
    (h2 : globCwdMetaJson fs = []) :
    cleanupTempFiles fs = Except.ok fs := by
  simp [cleanupTempFiles, h1, h2]

def claim6fs : FS := [([logsStr, cartStr, argsYmlName], Content.text argsYmlName)]

/-- C6 witness: a filesystem without the temporary files is untouched. -/
theorem cleanup_missing_files_noop_witness :
    fsLookup claim6fs testMp4Path = none
    ∧ globCwdMetaJson claim6fs = []
    ∧ cleanupTempFiles claim6fs = Except.ok claim6fs :=
  ⟨by decide, by decide, cleanup_missing_files_noop claim6fs (by decide) (by decide)⟩

end PushToHub
